import Mathlib

/-
Verification of the runtime value model of the grass style-sheet preprocessor
(src/value/mod.rs, src/value/number.rs).  The data model and operations are
embedded shallowly: `Number` is an exact rational (`BigRational` in the source),
`Value` is the tagged union of runtime values, and the operations
(`eq`, `not_equals`, `cmp`, `is_null`, `to_css_string`, `inspect`,
`visit_quoted_string`, `selector_string`) are translated arm by arm from the
Rust source.  Components of the repository that are not part of the provided
sources (the unit table, the `common` enums, `hex_char_for`) are modelled from
the specification and are marked as such.
-/

namespace Grass

/-- Source location used for error attribution (`codemap::Span`); its internal
structure is irrelevant to this core, an identifier suffices. -/
structure Span where
  idx : Nat
deriving DecidableEq

/-- `codemap::Spanned<T>`: a value paired with its source span.  Modelled from
the spec: equality of spanned values is the derived structural equality. -/
structure Spanned (α : Type) where
  node : α
  span : Span
deriving DecidableEq

/-- Modelled from the spec: the color type is opaque to this core beyond its
own textual form (spec §3), so it is represented by that textual form. -/
structure Color where
  text : String
deriving DecidableEq

/-- Modelled from the spec: `FunctionRef(name, identity)` (spec §3); only the
name is observable by this core (used by `inspect`). -/
structure SassFunction where
  name : String
deriving DecidableEq

/-- Modelled from the spec: `common::QuoteKind` — whether a string value
renders with quote marks. -/
inductive QuoteKind
  | Quoted
  | None
deriving DecidableEq

/-- Modelled from the spec: `common::Brackets` — bracket state of a list. -/
inductive Brackets
  | None
  | Bracketed
deriving DecidableEq

/-- Modelled from the spec: `common::ListSeparator`. -/
inductive ListSeparator
  | Space
  | Comma
deriving DecidableEq

/-- Modelled from the spec: `ListSeparator::as_str` — the pretty join text of
a separator (spec §8: a comma list joins with a comma and a space). -/
def sepStr : ListSeparator → String
  | ListSeparator.Space => " "
  | ListSeparator.Comma => ", "

/-- Modelled from the spec: `ListSeparator::as_compressed_str` — compressed
mode minimizes separator whitespace (spec §8). -/
def sepCompressed : ListSeparator → String
  | ListSeparator.Space => " "
  | ListSeparator.Comma => ","

/-- Modelled from the spec: the ordering / arithmetic operator token whose
rendering appears in undefined-operation messages. -/
inductive Op
  | lessThan
  | lessThanEqual
  | greaterThan
  | greaterThanEqual
deriving DecidableEq

/-- Modelled from the spec: rendering of an operator token. -/
def opStr : Op → String
  | Op.lessThan => "<"
  | Op.lessThanEqual => "<="
  | Op.greaterThan => ">"
  | Op.greaterThanEqual => ">="

/-
Exact rational arithmetic.  `BigRational` is a gcd-normalized fraction with
exact field operations; Lean's `Rat` matches it exactly.  The Batteries
arithmetic operations on `Rat` are marked irreducible, which blocks kernel
evaluation, so the operations are restated here through the reducible smart
constructor `mkRat`; the bridge lemmas below prove each one equal to the
standard operation, so the embedding's arithmetic is the arithmetic of `ℚ`.
-/

/-- Exact rational addition (kernel-reducible form). -/
def qadd (a b : ℚ) : ℚ :=
  mkRat (a.num * b.den + b.num * a.den) (a.den * b.den)

/-- Exact rational subtraction (kernel-reducible form). -/
def qsub (a b : ℚ) : ℚ :=
  mkRat (a.num * b.den - b.num * a.den) (a.den * b.den)

/-- Exact rational multiplication (kernel-reducible form). -/
def qmul (a b : ℚ) : ℚ :=
  mkRat (a.num * b.num) (a.den * b.den)

/-- Exact rational division (kernel-reducible form). -/
def qdiv (a b : ℚ) : ℚ :=
  Rat.divInt (a.num * b.den) (a.den * b.num)

/-- Embedding of an integer as a rational (kernel-reducible form). -/
def qofInt (i : ℤ) : ℚ :=
  mkRat i 1

theorem qadd_eq (a b : ℚ) : qadd a b = a + b :=
  (Rat.add_def' a b).symm

theorem qsub_eq (a b : ℚ) : qsub a b = a - b :=
  (Rat.sub_def' a b).symm

theorem qmul_eq (a b : ℚ) : qmul a b = a * b := by
  unfold qmul
  rw [Rat.mul_def, Rat.normalize_eq_mkRat]

theorem qofInt_eq (i : ℤ) : qofInt i = (i : ℚ) := by
  simp [qofInt, Rat.mkRat_one]

theorem qdiv_eq (a b : ℚ) : qdiv a b = a / b := by
  rcases eq_or_ne b.num 0 with hb | hb
  · have hb0 : b = 0 := Rat.num_eq_zero.1 hb
    simp [qdiv, hb, hb0]
  · have had : (a.den : ℚ) ≠ 0 := Nat.cast_ne_zero.2 a.den_nz
    have hbd : (b.den : ℚ) ≠ 0 := Nat.cast_ne_zero.2 b.den_nz
    have hbn : (b.num : ℚ) ≠ 0 := Int.cast_ne_zero.2 hb
    rw [qdiv, Rat.divInt_eq_div]
    push_cast
    conv_rhs => rw [← Rat.num_div_den a, ← Rat.num_div_den b]
    field_simp

/-- Modelled from the spec: the fixed set of simple CSS units
(length, angle, time, frequency, resolution families, plus font-relative
and percentage units) out of which units are built (spec §3). -/
inductive BaseUnit
  | px
  | mm
  | cm
  | inch
  | deg
  | grad
  | turn
  | rad
  | s
  | ms
  | hz
  | khz
  | dpi
  | dppx
  | em
  | rem
  | percent
deriving DecidableEq

/-- Modelled from the spec: unit compatibility classes (spec §2: length,
angle, time, frequency, resolution; font-relative and percentage units get
their own singleton classes). -/
inductive UnitClass
  | length
  | angle
  | time
  | frequency
  | resolution
  | fontEm
  | fontRem
  | percentage
deriving DecidableEq

/-- Modelled from the spec: the compatibility class of each simple unit. -/
def classOf : BaseUnit → UnitClass
  | BaseUnit.px => UnitClass.length
  | BaseUnit.mm => UnitClass.length
  | BaseUnit.cm => UnitClass.length
  | BaseUnit.inch => UnitClass.length
  | BaseUnit.deg => UnitClass.angle
  | BaseUnit.grad => UnitClass.angle
  | BaseUnit.turn => UnitClass.angle
  | BaseUnit.rad => UnitClass.angle
  | BaseUnit.s => UnitClass.time
  | BaseUnit.ms => UnitClass.time
  | BaseUnit.hz => UnitClass.frequency
  | BaseUnit.khz => UnitClass.frequency
  | BaseUnit.dpi => UnitClass.resolution
  | BaseUnit.dppx => UnitClass.resolution
  | BaseUnit.em => UnitClass.fontEm
  | BaseUnit.rem => UnitClass.fontRem
  | BaseUnit.percent => UnitClass.percentage

/-- Modelled from the spec: each simple unit carries a conversion factor
relative to its class base; conversion rescales by the ratio of two factors
(spec §4.1).  The spec fixes no numeric table, so representative rational
factors are used (1in = 96px = 25.4mm, 1turn = 360deg, 1s = 1000ms, ...);
no claim depends on the particular constants. -/
def factorOf : BaseUnit → ℚ
  | BaseUnit.px => 1
  | BaseUnit.mm => mkRat 480 127
  | BaseUnit.cm => mkRat 4800 127
  | BaseUnit.inch => 96
  | BaseUnit.deg => 1
  | BaseUnit.grad => mkRat 9 10
  | BaseUnit.turn => 360
  | BaseUnit.rad => 1
  | BaseUnit.s => 1
  | BaseUnit.ms => mkRat 1 1000
  | BaseUnit.hz => 1
  | BaseUnit.khz => 1000
  | BaseUnit.dpi => 1
  | BaseUnit.dppx => 96
  | BaseUnit.em => 1
  | BaseUnit.rem => 1
  | BaseUnit.percent => 1

/-- Modelled from the spec: `unit::Unit` — a simple unit, the dimensionless
unit, or a compound unit built as a product list or quotient of two lists of
simple units (spec §3). -/
inductive Unit
  | base (b : BaseUnit)
  | none
  | mul (factors : List BaseUnit)
  | div (numer : List BaseUnit) (denom : List BaseUnit)
deriving DecidableEq

/-- Modelled from the spec: rendering of a simple unit name. -/
def baseUnitStr : BaseUnit → String
  | BaseUnit.px => "px"
  | BaseUnit.mm => "mm"
  | BaseUnit.cm => "cm"
  | BaseUnit.inch => "in"
  | BaseUnit.deg => "deg"
  | BaseUnit.grad => "grad"
  | BaseUnit.turn => "turn"
  | BaseUnit.rad => "rad"
  | BaseUnit.s => "s"
  | BaseUnit.ms => "ms"
  | BaseUnit.hz => "Hz"
  | BaseUnit.khz => "kHz"
  | BaseUnit.dpi => "dpi"
  | BaseUnit.dppx => "dppx"
  | BaseUnit.em => "em"
  | BaseUnit.rem => "rem"
  | BaseUnit.percent => "%"

/-- Modelled from the spec: `Display for Unit` — the dimensionless unit
renders as empty text; a product unit joins its factors with a star
(spec §8: `1px * 1rad * 1em` has textual form `px*rad*em`); a quotient joins
numerator and denominator with a slash. -/
def unitStr : Unit → String
  | Unit.base b => baseUnitStr b
  | Unit.none => ""
  | Unit.mul fs => String.intercalate "*" (fs.map baseUnitStr)
  | Unit.div ns ds =>
      String.intercalate "*" (ns.map baseUnitStr) ++ "/"
        ++ String.intercalate "*" (ds.map baseUnitStr)

/-- Modelled from the spec: `Unit::comparable` — conversion (and hence
comparison) is only valid within one compatibility class, and the
dimensionless unit is compatible with everything (spec §3, §4.1).
Compound units belong to no class. -/
def comparable : Unit → Unit → Bool
  | Unit.none, _ => true
  | _, Unit.none => true
  | Unit.base a, Unit.base b => classOf a = classOf b
  | _, _ => false

/-- Modelled from the spec: `Number::convert(from, to)` — rescales a value by
the ratio of the two simple units' conversion factors within one class; the
dimensionless unit never requires conversion (spec §4.1). -/
def convert (n : ℚ) (fromU toU : Unit) : ℚ :=
  match fromU, toU with
  | Unit.base f, Unit.base t => qdiv (qmul n (factorOf f)) (factorOf t)
  | _, _ => n

/-- `Number` holds an exact `BigRational`; `ℚ` (always in lowest terms)
matches that semantics exactly. -/
abbrev Number := ℚ

/-- `BigRational::to_integer`: truncation toward zero. -/
def rtrunc (q : ℚ) : ℤ :=
  if 0 ≤ q.num then Int.ofNat (q.num.toNat / q.den)
  else -Int.ofNat ((-q.num).toNat / q.den)

/-- `BigRational::fract`: the value minus its truncation, keeping the sign of
the value. -/
def rfract (q : ℚ) : ℚ :=
  qsub q (qofInt (rtrunc q))

/-- Floor on rationals, expressed through truncation (used to define the
rounding modes below without appeal to noncomputable machinery). -/
def rfloor (q : ℚ) : ℤ :=
  if 0 ≤ q ∨ rfract q = 0 then rtrunc q else rtrunc q - 1

/-- Ceiling on rationals, expressed through truncation. -/
def rceil (q : ℚ) : ℤ :=
  if q ≤ 0 ∨ rfract q = 0 then rtrunc q else rtrunc q + 1

/-- `BigRational::round`: rounds to the nearest integer, rounding half-way
cases away from zero (the documented behavior of the rational library the
source uses). -/
def roundAway (q : ℚ) : ℤ :=
  if 0 ≤ q then rfloor (qadd q (mkRat 1 2)) else rceil (qsub q (mkRat 1 2))

/-- Half-up rounding (rounds half-way cases toward positive infinity):
the rounding mode named by the claim for the final display digit. -/
def roundHalfUp (q : ℚ) : ℤ :=
  rfloor (qadd q (mkRat 1 2))

/-- The digit loop of `Display for Number` (src/value/number.rs lines 84-91):
multiply the fraction by ten, write its integer part, take the new fraction,
stop when the fraction becomes exactly zero or the iteration budget is spent;
returns the written text and the remaining fraction. -/
def fmtFracLoop (f : ℚ) : Nat → String × ℚ
  | 0 => ("", f)
  | k + 1 =>
      let f10 := qmul f 10
      let d := rtrunc f10
      let r := rfract f10
      if r = 0 then (toString d, (0 : ℚ))
      else
        let p := fmtFracLoop r k
        (toString d ++ p.1, p.2)

/-- `Display for Number` (src/value/number.rs lines 78-104): write the
truncated integer part; if the fraction is nonzero write a decimal point, up
to `PRECISION = 10` digits via `fmtFracLoop`, and, if a nonzero fraction
remains, one extra value obtained by multiplying the remainder by ten and
rounding with `BigRational::round`. -/
def numberDisplay (q : ℚ) : String :=
  let ip := toString (rtrunc q)
  let f := rfract q
  if f = 0 then ip
  else
    let p := fmtFracLoop f 10
    ip ++ "." ++ p.1 ++ (if p.2 = 0 then "" else toString (roundAway (qmul p.2 10)))

/-- Modelled from the spec: `Number::to_string(is_compressed)` is not among
the provided sources; compressed mode "never affects numeric formatting"
(spec §4.3), so it coincides with the `Display` rendering. -/
def numToString (q : ℚ) (_isCompressed : Bool) : String :=
  numberDisplay q

/-- Modelled from the spec: `Number::inspect` is not among the provided
sources; numeric inspection coincides with the display rendering. -/
def numInspect (q : ℚ) : String :=
  numberDisplay q


/-- The runtime value model (src/value/mod.rs lines 27-42).  A `None` number
in `Dimension` indicates a NaN value; the `Bool` is the opaque per-value
metadata flag (preserved, never interpreted).  `Map` carries the `SassMap`
payload, an insertion-ordered association list. -/
inductive Value
  | Important
  | True
  | False
  | Null
  | Dimension (num : Option Number) (unit : Unit) (flag : Bool)
  | List (items : List Value) (sep : ListSeparator) (brackets : Brackets)
  | Color (c : Color)
  | String (s : String) (q : QuoteKind)
  | Map (entries : List (Value × Value))
  | ArgList (args : List (Spanned Value))
  | FunctionRef (f : SassFunction)

mutual

/-- `PartialEq for Value`, method `eq` (src/value/mod.rs lines 44-125),
translated arm by arm; the list loops are `valueEqL`, `mapEqL`,
`spannedEqL` and `argEqL`. -/
def valueEq : Value → Value → Bool
  | Value.String s1 _, Value.String s2 _ => s1 == s2
  | Value.String _ _, _ => false
  | Value.Dimension (some n) u _, Value.Dimension (some n2) u2 _ =>
      if !comparable u u2 then false
      else if u = u2 then decide (n = n2)
      else if u = Unit.none ∨ u2 = Unit.none then false
      else decide (n = convert n2 u2 u)
  | Value.Dimension (some _) _ _, _ => false
  | Value.Dimension Option.none _ _, _ => false
  | Value.List l1 s1 b1, Value.List l2 s2 b2 =>
      if s1 ≠ s2 ∨ b1 ≠ b2 ∨ l1.length ≠ l2.length then false
      else valueEqL l1 l2
  | Value.List _ _ _, _ => false
  | Value.Null, Value.Null => true
  | Value.Null, _ => false
  | Value.True, Value.True => true
  | Value.True, _ => false
  | Value.False, Value.False => true
  | Value.False, _ => false
  | Value.Important, Value.Important => true
  | Value.Important, _ => false
  | Value.FunctionRef f1, Value.FunctionRef f2 => decide (f1 = f2)
  | Value.FunctionRef _, _ => false
  | Value.Map m1, Value.Map m2 => mapEqL m1 m2
  | Value.Map _, _ => false
  | Value.Color c1, Value.Color c2 => decide (c1 = c2)
  | Value.Color _, _ => false
  | Value.ArgList l1, Value.ArgList l2 => spannedEqL l1 l2
  | Value.ArgList l1, Value.List l2 ListSeparator.Comma _ =>
      if l1.length ≠ l2.length then false else argEqL l1 l2
  | Value.ArgList _, _ => false
termination_by a _ => sizeOf a

/-- The element loop of the `List`/`List` arm of `eq` (zip the two lists,
fail on the first unequal pair); lengths are checked by the caller. -/
def valueEqL : List Value → List Value → Bool
  | a :: xs, b :: ys => if valueEq a b then valueEqL xs ys else false
  | _, _ => true
termination_by l1 _ => sizeOf l1

/-- Modelled from the spec: `SassMap` equality is the derived `Vec` equality
of the entry lists (length, then pairwise key/value equality). -/
def mapEqL : List (Value × Value) → List (Value × Value) → Bool
  | [], [] => true
  | (k1, v1) :: xs, (k2, v2) :: ys =>
      if valueEq k1 k2 then (if valueEq v1 v2 then mapEqL xs ys else false)
      else false
  | _, _ => false
termination_by l1 _ => sizeOf l1

/-- Modelled from the spec: `Vec<Spanned<Value>>` equality for the
`ArgList`/`ArgList` arm — derived structural equality (node and span). -/
def spannedEqL : List (Spanned Value) → List (Spanned Value) → Bool
  | [], [] => true
  | ⟨n1, sp1⟩ :: xs, ⟨n2, sp2⟩ :: ys =>
      if valueEq n1 n2 then (if sp1 = sp2 then spannedEqL xs ys else false)
      else false
  | _, _ => false
termination_by l1 _ => sizeOf l1

/-- The element loop of the `ArgList`/`List` arm of `eq` (compare each
spanned node against the plain list element); lengths are checked by the
caller. -/
def argEqL : List (Spanned Value) → List Value → Bool
  | ⟨n1, _⟩ :: xs, b :: ys => if valueEq n1 b then argEqL xs ys else false
  | _, _ => true
termination_by l1 _ => sizeOf l1

end

mutual

/-- `Value::is_null` (src/value/mod.rs lines 196-206): `Null` and the empty
unquoted string are null; a bracketed empty list and an empty `ArgList` are
not; any other list or `ArgList` is null iff every element is null; all other
values are not null. -/
def is_null : Value → Bool
  | Value.Null => true
  | Value.String s QuoteKind.None => s.isEmpty
  | Value.List v _ br => if br = Brackets.Bracketed ∧ v.isEmpty then false else allNull v
  | Value.ArgList v => if v.isEmpty then false else allNullArgs v
  | _ => false
termination_by v => sizeOf v

/-- The `all` loop over list elements in `is_null`. -/
def allNull : List Value → Bool
  | [] => true
  | x :: xs => if is_null x then allNull xs else false
termination_by l => sizeOf l

/-- The `all` loop over `ArgList` elements in `is_null` (nullity of the
spanned node). -/
def allNullArgs : List (Spanned Value) → Bool
  | [] => true
  | ⟨n, _⟩ :: xs => if is_null n then allNullArgs xs else false
termination_by l => sizeOf l

end

/-- The apostrophe character. -/
def squote : Char := Char.ofNat 39

/-- The double-quote character. -/
def dquote : Char := Char.ofNat 34

/-- The backslash character. -/
def bslash : Char := Char.ofNat 92

/-- One-character string: apostrophe. -/
def sQ : String := String.singleton squote

/-- One-character string: double quote. -/
def dQ : String := String.singleton dquote

/-- One-character string: backslash. -/
def bS : String := String.singleton bslash

/-- Modelled from the spec: `utils::hex_char_for` — the hexadecimal digit
character for a value below 16 (decimal digits, then lowercase letters). -/
def hexCharFor (n : Nat) : Char :=
  if n < 10 then Char.ofNat (48 + n) else Char.ofNat (87 + n)

/-- Is this character in the escaped control range of `visit_quoted_string`
(`'\x00'..='\x08' | '\x0A'..='\x1F'`)? -/
def isEscapedCtl (c : Char) : Bool :=
  decide (c.toNat ≤ 8) || (decide (10 ≤ c.toNat) && decide (c.toNat ≤ 31))

/-- `char::is_ascii_hexdigit`. -/
def isAsciiHexdigit (c : Char) : Bool :=
  (decide (48 ≤ c.toNat) && decide (c.toNat ≤ 57))
    || (decide (97 ≤ c.toNat) && decide (c.toNat ≤ 102))
    || (decide (65 ≤ c.toNat) && decide (c.toNat ≤ 70))

/-- The control-byte escape written by `visit_quoted_string` (lines 162-167):
a backslash, then the code point in hexadecimal — one digit if it fits in
4 bits, else two. -/
def ctlEscape (c : Char) : String :=
  bS ++ (if c.toNat > 15 then String.singleton (hexCharFor (c.toNat / 16)) else "")
    ++ String.singleton (hexCharFor (c.toNat % 16))

/-- Does the control escape need a trailing space so the next character is
not read as part of the hex escape (lines 169-176)?  True when the next
character is a hex digit, a space or a tab. -/
def ctlPad (next : Option Char) : String :=
  match next with
  | some n => if isAsciiHexdigit n || n = Char.ofNat 32 || n = Char.ofNat 9 then " " else ""
  | Option.none => ""

/-- The character loop of `visit_quoted_string` (src/value/mod.rs lines
138-184), parameterized by the `force_double_quote` flag and the two
has-quote flags.  Returns the buffer contents and the final
`has_double_quote` flag, or `none` when a quote conflict forces the restart
(`return visit_quoted_string(buf, true, string)`).  In the control-byte arm
the Rust loop breaks when no character follows the escape; since nothing
follows, that break coincides with the loop simply ending. -/
def vqsLoop (force hasS hasD : Bool) : List Char → Option (String × Bool)
  | [] => some ("", hasD)
  | c :: rest =>
    if c = squote then
      if force then
        match vqsLoop force hasS hasD rest with
        | some p => some (sQ ++ p.1, p.2)
        | Option.none => Option.none
      else if hasD then Option.none
      else
        match vqsLoop force true hasD rest with
        | some p => some (sQ ++ p.1, p.2)
        | Option.none => Option.none
    else if c = dquote then
      if force then
        match vqsLoop force hasS hasD rest with
        | some p => some (bS ++ dQ ++ p.1, p.2)
        | Option.none => Option.none
      else if hasS then Option.none
      else
        match vqsLoop force hasS true rest with
        | some p => some (dQ ++ p.1, p.2)
        | Option.none => Option.none
    else if isEscapedCtl c then
      match vqsLoop force hasS hasD rest with
      | some p => some (ctlEscape c ++ ctlPad rest.head? ++ p.1, p.2)
      | Option.none => Option.none
    else if c = bslash then
      match vqsLoop force hasS hasD rest with
      | some p => some (bS ++ bS ++ p.1, p.2)
      | Option.none => Option.none
    else
      match vqsLoop force hasS hasD rest with
      | some p => some (String.singleton c ++ p.1, p.2)
      | Option.none => Option.none

/-- `visit_quoted_string` (src/value/mod.rs lines 129-193), as the string it
appends to `buf`: scan with `vqsLoop`; on a quote conflict restart the whole
scan in forced-double-quote mode; in forced mode wrap in double quotes,
otherwise wrap in double quotes when no double quote was seen and in single
quotes when one was. -/
def visit_quoted_string (force : Bool) (s : String) : String :=
  if force then
    match vqsLoop true false false s.data with
    | some p => dQ ++ p.1 ++ dQ
    | Option.none => ""
  else
    match vqsLoop false false false s.data with
    | some p => if p.2 then sQ ++ p.1 ++ sQ else dQ ++ p.1 ++ dQ
    | Option.none =>
      match vqsLoop true false false s.data with
      | some p => dQ ++ p.1 ++ dQ
      | Option.none => ""

/-- The newline / space-collapsing loop serializing an unquoted string
(src/value/mod.rs lines 268-288): a newline becomes a single space and
suppresses the immediately following run of spaces. -/
def collapseNewlines : Bool → List Char → String
  | _, [] => ""
  | afterNewline, c :: rest =>
    if c = Char.ofNat 10 then " " ++ collapseNewlines true rest
    else if c = Char.ofNat 32 then
      (if afterNewline then "" else " ") ++ collapseNewlines afterNewline rest
    else String.singleton c ++ collapseNewlines false rest

/-- The non-recursive serialization of the atomic variants
(`Important`, `True`, `False`, `Color`, `String`) — exactly the
corresponding arms of `to_css_string` (which do not depend on the compressed
flag and never fail); `inspect` falls back to these arms for those variants.
Unreachable variants give the empty string. -/
def cssAtom : Value → String
  | Value.Important => "!important"
  | Value.True => "true"
  | Value.False => "false"
  | Value.Color c => c.text
  | Value.String s QuoteKind.None => collapseNewlines false s.data
  | Value.String s QuoteKind.Quoted => visit_quoted_string false s
  | _ => ""

mutual

/-- `Value::inspect` (src/value/mod.rs lines 452-517), arm by arm.  The Rust
signature returns `SassResult`, but no arm can produce an `Err`: the only
fallible calls are the `to_css_string` fallback on `Important`, `True`,
`False`, `Color` and `String` (arms that never fail, embedded here as
`cssAtom`) and recursive `inspect` calls; inspection is therefore total. -/
def inspect (v : Value) (sp : Span) : String :=
  match v with
  | Value.List [] _ Brackets.None => "()"
  | Value.List [] _ Brackets.Bracketed => "[]"
  | Value.List [x] ListSeparator.Space Brackets.None => inspect x sp
  | Value.List [x] ListSeparator.Comma Brackets.None => "(" ++ inspect x sp ++ ",)"
  | Value.List [x] ListSeparator.Space Brackets.Bracketed => "[" ++ inspect x sp ++ "]"
  | Value.List [x] ListSeparator.Comma Brackets.Bracketed => "[" ++ inspect x sp ++ ",]"
  | Value.List vs sep Brackets.None => String.intercalate (sepStr sep) (inspectL vs sp)
  | Value.List vs sep Brackets.Bracketed =>
      "[" ++ String.intercalate (sepStr sep) (inspectL vs sp) ++ "]"
  | Value.FunctionRef f => "get-function(" ++ dQ ++ f.name ++ dQ ++ ")"
  | Value.Null => "null"
  | Value.Map m => "(" ++ String.intercalate ", " (inspectPairs m sp) ++ ")"
  | Value.Dimension (some n) u _ => numInspect n ++ unitStr u
  | Value.Dimension Option.none u _ => "NaN" ++ unitStr u
  | Value.ArgList [] => "()"
  | Value.ArgList [a] => "(" ++ String.intercalate ", " (inspectArgs [a] sp) ++ ",)"
  | Value.ArgList args => String.intercalate ", " (inspectArgs args sp)
  | v => cssAtom v
termination_by (sizeOf v, 0)

/-- The element map of the general `List` arm of `inspect`. -/
def inspectL (vs : List Value) (sp : Span) : List String :=
  match vs with
  | [] => []
  | x :: xs => inspect x sp :: inspectL xs sp
termination_by (sizeOf vs, 0)

/-- The entry map of the `Map` arm of `inspect` (`"key: value"`). -/
def inspectPairs (ps : List (Value × Value)) (sp : Span) : List String :=
  match ps with
  | [] => []
  | (k, v) :: xs => (inspect k sp ++ ": " ++ inspect v sp) :: inspectPairs xs sp
termination_by (sizeOf ps, 0)

/-- The element map of the `ArgList` arms of `inspect`: null elements are
filtered out, the rest are inspected. -/
def inspectArgs (args : List (Spanned Value)) (sp : Span) : List String :=
  match args with
  | [] => []
  | ⟨n, _⟩ :: xs =>
      if is_null n then inspectArgs xs sp else inspect n sp :: inspectArgs xs sp
termination_by (sizeOf args, 0)

end

/-- The error-message suffix of every invalid-CSS-value error. -/
def invalidCss : String := " isn\x27t a valid CSS value."

mutual

/-- `Value::to_css_string` (src/value/mod.rs lines 208-313), arm by arm;
errors are returned as `Except.error (message, span)`. -/
def to_css_string (v : Value) (sp : Span) (isCompressed : Bool) :
    Except (String × Span) String :=
  match v with
  | Value.Important => Except.ok "!important"
  | Value.Dimension num unit _ =>
      match unit with
      | Unit.mul _ =>
          match num with
          | some n => Except.error (numToString n isCompressed ++ unitStr unit ++ invalidCss, sp)
          | Option.none => Except.error ("NaN" ++ unitStr unit ++ invalidCss, sp)
      | Unit.div _ _ =>
          match num with
          | some n => Except.error (numToString n isCompressed ++ unitStr unit ++ invalidCss, sp)
          | Option.none => Except.error ("NaN" ++ unitStr unit ++ invalidCss, sp)
      | _ =>
          match num with
          | some n => Except.ok (numToString n isCompressed ++ unitStr unit)
          | Option.none => Except.ok ("NaN" ++ unitStr unit)
  | Value.Map _ => Except.error (inspect v sp ++ invalidCss, sp)
  | Value.FunctionRef _ => Except.error (inspect v sp ++ invalidCss, sp)
  | Value.List vals sep brackets =>
      match cssL vals sp isCompressed with
      | Except.error e => Except.error e
      | Except.ok parts =>
          let joined := String.intercalate
            (if isCompressed then sepCompressed sep else sepStr sep) parts
          match brackets with
          | Brackets.None => Except.ok joined
          | Brackets.Bracketed => Except.ok ("[" ++ joined ++ "]")
  | Value.Color c => Except.ok c.text
  | Value.String s QuoteKind.None => Except.ok (collapseNewlines false s.data)
  | Value.String s QuoteKind.Quoted => Except.ok (visit_quoted_string false s)
  | Value.True => Except.ok "true"
  | Value.False => Except.ok "false"
  | Value.Null => Except.ok ""
  | Value.ArgList args =>
      if args.isEmpty then Except.error ("()" ++ invalidCss, sp)
      else
        match cssArgs args sp isCompressed with
        | Except.error e => Except.error e
        | Except.ok parts =>
            Except.ok (String.intercalate
              (if isCompressed then sepCompressed ListSeparator.Comma
               else sepStr ListSeparator.Comma) parts)
termination_by (sizeOf v, 1)

/-- The filter-and-serialize loop of the `List` arm of `to_css_string`:
null elements are dropped, the rest serialized, the first error
short-circuits the collection. -/
def cssL (vs : List Value) (sp : Span) (isCompressed : Bool) :
    Except (String × Span) (List String) :=
  match vs with
  | [] => Except.ok []
  | x :: xs =>
      if is_null x then cssL xs sp isCompressed
      else
        match to_css_string x sp isCompressed with
        | Except.error e => Except.error e
        | Except.ok s =>
            match cssL xs sp isCompressed with
            | Except.error e => Except.error e
            | Except.ok ss => Except.ok (s :: ss)
termination_by (sizeOf vs, 1)

/-- The filter-and-serialize loop of the `ArgList` arm of `to_css_string`. -/
def cssArgs (args : List (Spanned Value)) (sp : Span) (isCompressed : Bool) :
    Except (String × Span) (List String) :=
  match args with
  | [] => Except.ok []
  | ⟨n, _⟩ :: xs =>
      if is_null n then cssArgs xs sp isCompressed
      else
        match to_css_string n sp isCompressed with
        | Except.error e => Except.error e
        | Except.ok s =>
            match cssArgs xs sp isCompressed with
            | Except.error e => Except.error e
            | Except.ok ss => Except.ok (s :: ss)
termination_by (sizeOf args, 1)

end

/-- The outcome of `Value::cmp`: a returned `Ordering`, a returned error
(message and span), or a fatal panic (`todo!()`). -/
inductive CmpOutcome
  | ok (o : Ordering)
  | err (msg : String) (sp : Span)
  | panicked
deriving DecidableEq

/-- Exact rational comparison (`Ord for Number`). -/
def ratCompare (a b : ℚ) : Ordering :=
  if a < b then Ordering.lt else if b < a then Ordering.gt else Ordering.eq

/-- The message of an undefined-operation error: `Undefined operation
"<lhs> <op> <rhs>".` with both operands rendered by `inspect`. -/
def undefinedOpMsg (a b : Value) (sp : Span) (op : Op) : String :=
  "Undefined operation " ++ dQ ++ inspect a sp ++ " " ++ opStr op ++ " "
    ++ inspect b sp ++ dQ ++ "."

/-- `Value::cmp` (src/value/mod.rs lines 366-409), arm by arm.  The two
`todo!()` arms — either operand a `Dimension` with absent number — abort
instead of returning, embedded as the `panicked` outcome. -/
def cmp (self other : Value) (sp : Span) (op : Op) : CmpOutcome :=
  match self with
  | Value.Dimension Option.none _ _ => CmpOutcome.panicked
  | Value.Dimension (some num) unit _ =>
      match other with
      | Value.Dimension Option.none _ _ => CmpOutcome.panicked
      | Value.Dimension (some num2) unit2 _ =>
          if !comparable unit unit2 then
            CmpOutcome.err
              ("Incompatible units " ++ unitStr unit2 ++ " and " ++ unitStr unit ++ ".") sp
          else if unit = unit2 ∨ unit = Unit.none ∨ unit2 = Unit.none then
            CmpOutcome.ok (ratCompare num num2)
          else
            CmpOutcome.ok (ratCompare num (convert num2 unit2 unit))
      | _ => CmpOutcome.err (undefinedOpMsg self other sp op) sp
  | _ => CmpOutcome.err (undefinedOpMsg self other sp op) sp

mutual

/-- `Value::not_equals` (src/value/mod.rs lines 411-448), arm by arm: its
own structural recursion for strings, dimensions and lists, and `s != other`
(the negation of `eq`) for every other left-hand variant. -/
def not_equals : Value → Value → Bool
  | Value.String s1 _, Value.String s2 _ => !(s1 == s2)
  | Value.String _ _, _ => true
  | Value.Dimension (some n) u _, Value.Dimension (some n2) u2 _ =>
      if !comparable u u2 then true
      else if u = u2 then !decide (n = n2)
      else if u = Unit.none ∨ u2 = Unit.none then true
      else !decide (n = convert n2 u2 u)
  | Value.Dimension (some _) _ _, _ => true
  | Value.List l1 s1 b1, Value.List l2 s2 b2 =>
      if s1 ≠ s2 ∨ b1 ≠ b2 ∨ l1.length ≠ l2.length then true
      else notEqualsL l1 l2
  | Value.List _ _ _, _ => true
  | a, b => !valueEq a b
termination_by a _ => sizeOf a

/-- The element loop of the `List`/`List` arm of `not_equals`: true as soon
as one zipped pair is `not_equals`, false when the loop finishes. -/
def notEqualsL : List Value → List Value → Bool
  | a :: xs, b :: ys => if not_equals a b then true else notEqualsL xs ys
  | _, _ => false
termination_by l1 _ => sizeOf l1

end

mutual

/-- `Value::selector_string` (src/value/mod.rs lines 573-608): the flattened
selector source text, or `none` (the Rust `Ok(None)`; the body never
produces an `Err`).  A bare string flattens to its text; a non-empty list
flattens element-wise — comma lists accept strings and space lists
(recursively flattened), space lists accept only strings — joined with the
separator's text; everything else is rejected. -/
def selector_string : Value → Option String
  | Value.String text _ => some text
  | Value.List list sep _ =>
      if list.isEmpty then Option.none
      else
        match sep with
        | ListSeparator.Comma =>
            match selCommaLoop list with
            | some parts => some (String.intercalate (sepStr ListSeparator.Comma) parts)
            | Option.none => Option.none
        | ListSeparator.Space =>
            match selSpaceLoop list with
            | some parts => some (String.intercalate (sepStr ListSeparator.Space) parts)
            | Option.none => Option.none
  | _ => Option.none
termination_by v => sizeOf v

/-- The comma-separator loop of `selector_string`: each element must be a
string (its text is taken) or a space list (flattened recursively); any
other element rejects the whole value. -/
def selCommaLoop : List Value → Option (List String)
  | [] => some []
  | Value.String text _ :: rest =>
      match selCommaLoop rest with
      | some ps => some (text :: ps)
      | Option.none => Option.none
  | Value.List l2 ListSeparator.Space b2 :: rest =>
      match selector_string (Value.List l2 ListSeparator.Space b2) with
      | some t =>
          match selCommaLoop rest with
          | some ps => some (t :: ps)
          | Option.none => Option.none
      | Option.none => Option.none
  | _ :: _ => Option.none
termination_by l => sizeOf l

/-- The space-separator loop of `selector_string`: every element must be a
string. -/
def selSpaceLoop : List Value → Option (List String)
  | [] => some []
  | Value.String text _ :: rest =>
      match selSpaceLoop rest with
      | some ps => some (text :: ps)
      | Option.none => Option.none
  | _ :: _ => Option.none
termination_by l => sizeOf l

end

/-- The user-facing message of `Value::to_selector` when `selector_string`
yields no text (src/value/mod.rs line 544). -/
def selectorErrMsg (name : String) (v : Value) (sp : Span) : String :=
  "$" ++ name ++ ": " ++ inspect v sp
    ++ " is not a valid selector: it must be a string, a list of strings, or a list of lists of strings."

/-- Modelled from the spec: `Value::to_selector` (src/value/mod.rs lines
536-571) up to the hand-off of the flattened text to the external selector
grammar parser, which is out of scope (spec §4.6) — `ok` carries the
selector source text that is re-tokenized and parsed, `error` the
user-facing invalid-selector message. -/
def to_selector_text (v : Value) (name : String) (sp : Span) :
    Except (String × Span) String :=
  match selector_string v with
  | some s => Except.ok s
  | Option.none => Except.error (selectorErrMsg name v sp, sp)

/-- Is the unit a compound (product or quotient) unit
(the `Unit::Mul(..) | Unit::Div(..)` pattern)? -/
def isCompoundUnit : Unit → Bool
  | Unit.mul _ => true
  | Unit.div _ _ => true
  | _ => false

/-- The rendered number of a dimension: the number's text, or `NaN` when the
number is absent. -/
def dimRender : Option ℚ → Bool → String
  | some n, c => numToString n c
  | Option.none, _ => "NaN"

/-- Claim C7: CSS serialization of a `Dimension` — a compound unit always
yields an error whose message names the rendered number (`NaN` when absent)
and the unit; a simple unit renders successfully as `<number><unit>`, and an
absent number renders as `NaN<unit>` successfully, not as an error. -/
theorem c7_to_css_dimension (num : Option ℚ) (u : Unit) (f : Bool) (sp : Span) (c : Bool) :
    to_css_string (Value.Dimension num u f) sp c =
      (if isCompoundUnit u then
        Except.error (dimRender num c ++ unitStr u ++ invalidCss, sp)
      else Except.ok (dimRender num c ++ unitStr u)) := by
  cases u <;> cases num <;> simp [to_css_string, isCompoundUnit, dimRender]

/-- Claim C1: the claim states that `cmp` never aborts fatally and turns
every invalid pairing — a NaN-like operand in particular — into a returned
error.  The code instead reaches `todo!()` and panics when an operand is a
`Dimension` with absent number: at this concrete input the outcome is the
panic, not the undefined-operation error the claim (and spec §7) require. -/
theorem c1_cmp_nan_panics :
    cmp (Value.Dimension Option.none (Unit.base BaseUnit.px) false)
        (Value.Dimension (some 1) (Unit.base BaseUnit.px) false) ⟨0⟩ Op.lessThan
      = CmpOutcome.panicked := rfl

/-- The element-wise `all` of `is_null`, as `List.all`. -/
theorem allNull_eq_all (l : List Value) : allNull l = l.all is_null := by
  induction l with
  | nil => simp [allNull]
  | cons x xs ih =>
      by_cases h : is_null x <;> simp [allNull, h, ih]

/-- The `ArgList` element-wise `all` of `is_null`, as `List.all` over the
spanned nodes. -/
theorem allNullArgs_eq_all (l : List (Spanned Value)) :
    allNullArgs l = l.all (fun a => is_null a.node) := by
  induction l with
  | nil => simp [allNullArgs]
  | cons x xs ih =>
      obtain ⟨n, spn⟩ := x
      by_cases h : is_null n <;> simp [allNullArgs, h, ih]

/-- Claim C9, counterexample: the claim says every value other than `Null`,
empty unquoted strings, non-bracketed lists and non-empty `ArgList`s is not
null — so a *bracketed* non-empty list would never be null.  But the code
special-cases only the bracketed *empty* list; a bracketed list of nulls is
null. -/
theorem c9_counterexample :
    is_null (Value.List [Value.Null] ListSeparator.Space Brackets.Bracketed) = true := by
  simp [is_null, allNull]

/-- Claim C9 (amended: a bracketed *empty* list is not null, and any other
list — bracketed or not — is null iff every element is null): the complete
characterization of `is_null` over every variant. -/
theorem c9_is_null_characterization :
    (is_null Value.Null = true)
    ∧ (∀ s, is_null (Value.String s QuoteKind.None) = s.isEmpty)
    ∧ (∀ s, is_null (Value.String s QuoteKind.Quoted) = false)
    ∧ (∀ l sep br, is_null (Value.List l sep br)
        = if br = Brackets.Bracketed ∧ l.isEmpty then false else l.all is_null)
    ∧ (∀ args, is_null (Value.ArgList args)
        = if args.isEmpty then false else args.all (fun a => is_null a.node))
    ∧ (∀ n u f, is_null (Value.Dimension n u f) = false)
    ∧ (is_null Value.True = false)
    ∧ (is_null Value.False = false)
    ∧ (is_null Value.Important = false)
    ∧ (∀ c, is_null (Value.Color c) = false)
    ∧ (∀ m, is_null (Value.Map m) = false)
    ∧ (∀ f, is_null (Value.FunctionRef f) = false) := by
  refine ⟨by simp [is_null], fun s => by simp [is_null], fun s => by simp [is_null],
    fun l sep br => ?_, fun args => ?_, fun n u f => by simp [is_null],
    by simp [is_null], by simp [is_null], by simp [is_null],
    fun c => by simp [is_null], fun m => by simp [is_null], fun f => by simp [is_null]⟩
  · rw [is_null, allNull_eq_all]
  · rw [is_null, allNullArgs_eq_all]

/-- Claim C3, counterexample: the claim orients the equality with the `List`
on the left (`List == ArgList`), but the `List` arm of `eq` only ever equates
with another `List`; at this concrete instance of the claim the comparison is
false. -/
theorem c3_counterexample :
    valueEq (Value.List [Value.Null] ListSeparator.Comma Brackets.None)
        (Value.ArgList [⟨Value.Null, ⟨0⟩⟩]) = false := by
  simp [valueEq]

/-- Claim C3 (amended: the one-element equation holds with the `ArgList` as
the *left* operand and a value that equals itself; the reverse orientation
returns false; `Dimension(10,px) == Dimension(10,px)` holds as claimed). -/
theorem c3_singleton_arglist_eq (v : Value) (sp : Span) (h : valueEq v v = true) :
    valueEq (Value.ArgList [⟨v, sp⟩]) (Value.List [v] ListSeparator.Comma Brackets.None) = true
    ∧ valueEq (Value.List [v] ListSeparator.Comma Brackets.None)
        (Value.ArgList [⟨v, sp⟩]) = false
    ∧ valueEq (Value.Dimension (some 10) (Unit.base BaseUnit.px) false)
        (Value.Dimension (some 10) (Unit.base BaseUnit.px) false) = true := by
  refine ⟨?_, ?_, ?_⟩
  · simp [valueEq, argEqL, h]
  · simp [valueEq]
  · simp [valueEq, comparable]

/-- Witness for C3's theorem at `v = Value.True`. -/
theorem c3_singleton_arglist_eq_witness :
    valueEq (Value.ArgList [⟨Value.True, ⟨0⟩⟩])
        (Value.List [Value.True] ListSeparator.Comma Brackets.None) = true
    ∧ valueEq (Value.List [Value.True] ListSeparator.Comma Brackets.None)
        (Value.ArgList [⟨Value.True, ⟨0⟩⟩]) = false :=
  ⟨(c3_singleton_arglist_eq Value.True ⟨0⟩ (by simp [valueEq])).1,
   (c3_singleton_arglist_eq Value.True ⟨0⟩ (by simp [valueEq])).2.1⟩

/-- Claim C4, counterexample: the claim says an `ArgList` never equals a
bracketed list, but the `ArgList`/`List` arm of `eq` ignores the bracket
field; a bracketed one-element comma list does equal the one-element
`ArgList`. -/
theorem c4_counterexample :
    valueEq (Value.ArgList [⟨Value.Null, ⟨0⟩⟩])
        (Value.List [Value.Null] ListSeparator.Comma Brackets.Bracketed) = true := by
  simp [valueEq, argEqL]

/-- The claim's element-wise pairwise equality of an `ArgList` against a
plain list (spanned node against element), failing on a length mismatch. -/
def pairwiseArgEq : List (Spanned Value) → List Value → Bool
  | [], [] => true
  | a :: xs, b :: ys => valueEq a.node b && pairwiseArgEq xs ys
  | _, _ => false

/-- The `ArgList`/`List` element loop agrees with the claim's pairwise
comparison when the lengths match (the caller checks lengths first). -/
theorem argEqL_eq_pairwise :
    ∀ (xs : List (Spanned Value)) (ys : List Value),
      xs.length = ys.length → argEqL xs ys = pairwiseArgEq xs ys
  | [], [], _ => by simp [argEqL, pairwiseArgEq]
  | ⟨n, spn⟩ :: xs, y :: ys, h => by
      by_cases hv : valueEq n y
      · simp [argEqL, pairwiseArgEq, hv]
        exact argEqL_eq_pairwise xs ys (by simpa using h)
      · simp [argEqL, pairwiseArgEq, hv]
  | [], _ :: _, h => by simp at h
  | _ :: _, [], h => by simp at h

/-- Claim C4 (amended: the bracket state of the list is ignored — equality
`ArgList == List` holds iff the list is comma-separated, the lengths match
and the elements are pairwise equal; a space-separated list or a list of a
different length is never equal). -/
theorem c4_arglist_list_eq (args : List (Spanned Value)) (items : List Value)
    (sep : ListSeparator) (br : Brackets) :
    valueEq (Value.ArgList args) (Value.List items sep br)
      = (decide (sep = ListSeparator.Comma) && decide (args.length = items.length)
          && pairwiseArgEq args items) := by
  cases sep
  · simp [valueEq]
  · by_cases h : args.length = items.length
    · simp [valueEq, h]
      exact argEqL_eq_pairwise args items h
    · simp [valueEq, h]

/-- Claim C2: dimension equality with both numbers present holds iff the
units are compatible and either the units match exactly and the raw numbers
are equal, or the units differ, neither is dimensionless, and the right
number converted into the left unit equals the left number (so a
dimensionless/dimensioned mismatch is always unequal); and a NaN-like
dimension (absent number) equals nothing and nothing equals it. -/
theorem c2_dimension_eq (n n2 : ℚ) (u u2 : Unit) (f f2 : Bool)
    (u3 : Unit) (f3 : Bool) (v : Value) :
    (valueEq (Value.Dimension (some n) u f) (Value.Dimension (some n2) u2 f2) = true
      ↔ (comparable u u2 = true
          ∧ ((u = u2 ∧ n = n2)
              ∨ (u ≠ u2 ∧ u ≠ Unit.none ∧ u2 ≠ Unit.none ∧ n = convert n2 u2 u))))
    ∧ valueEq (Value.Dimension Option.none u3 f3) v = false
    ∧ valueEq v (Value.Dimension Option.none u3 f3) = false := by
  refine ⟨?_, ?_, ?_⟩
  · by_cases hc : comparable u u2
    · by_cases he : u = u2
      · subst he
        simp [valueEq, hc]
      · by_cases hn : u = Unit.none ∨ u2 = Unit.none
        · rcases hn with h0 | h0
          · subst h0; simp [valueEq, hc, he]
          · subst h0; simp [valueEq, hc, he]
        · simp [valueEq, hc, he, hn]
          push_neg at hn
          simp [hn.1, hn.2]
    · have hc' : comparable u u2 = false := by simpa using hc
      simp [valueEq, hc']
  · simp [valueEq]
  · cases v with
    | Dimension num u' f' => cases num <;> simp [valueEq]
    | _ => simp [valueEq]

/-- The element loop of `not_equals` is the negation of the element loop of
`eq`, given that the negation holds element-wise on the left list. -/
theorem notEqualsL_eq_not (l1 l2 : List Value)
    (ih : ∀ x, x ∈ l1 → ∀ y, not_equals x y = !valueEq x y) :
    notEqualsL l1 l2 = !valueEqL l1 l2 := by
  induction l1 generalizing l2 with
  | nil => cases l2 <;> simp [notEqualsL, valueEqL]
  | cons a xs ihl =>
    cases l2 with
    | nil => simp [notEqualsL, valueEqL]
    | cons b ys =>
      have ha := ih a (List.mem_cons_self a xs) b
      by_cases h : valueEq a b = true
      · simp [notEqualsL, valueEqL, ha, h]
        exact ihl ys (fun x hx y => ih x (List.mem_cons_of_mem a hx) y)
      · have h' : valueEq a b = false := by simpa using h
        simp [notEqualsL, valueEqL, ha, h']

/-- Claim C10: `not_equals`, although written as its own structural
recursion over strings, dimensions and lists, returns exactly the negation
of `eq` on every pair of values. -/
theorem c10_not_equals_negates_eq (a b : Value) : not_equals a b = !valueEq a b := by
  match a, b with
  | Value.String s1 q1, b => cases b <;> simp [not_equals, valueEq]
  | Value.Dimension Option.none u f, b => simp [not_equals, valueEq]
  | Value.Dimension (some n) u f, b =>
      cases b with
      | Dimension num2 u2 f2 =>
          cases num2 with
          | none => simp [not_equals, valueEq]
          | some n2 =>
              by_cases hc : comparable u u2
              · by_cases he : u = u2
                · subst he; simp [not_equals, valueEq, hc]
                · by_cases hn : u = Unit.none ∨ u2 = Unit.none <;>
                    simp [not_equals, valueEq, hc, he, hn]
              · have hc' : comparable u u2 = false := by simpa using hc
                simp [not_equals, valueEq, hc']
      | _ => simp [not_equals, valueEq]
  | Value.List l1 s1 b1, b =>
      cases b with
      | List l2 s2 b2 =>
          by_cases h : s1 ≠ s2 ∨ b1 ≠ b2 ∨ l1.length ≠ l2.length
          · simp [not_equals, valueEq, h]
          · simp only [not_equals, valueEq, if_neg h]
            exact notEqualsL_eq_not l1 l2 (fun x hx y => c10_not_equals_negates_eq x y)
      | _ => simp [not_equals, valueEq]
  | Value.Null, b => simp [not_equals]
  | Value.True, b => simp [not_equals]
  | Value.False, b => simp [not_equals]
  | Value.Important, b => simp [not_equals]
  | Value.Color c, b => simp [not_equals]
  | Value.Map m, b => simp [not_equals]
  | Value.ArgList args, b => simp [not_equals]
  | Value.FunctionRef fr, b => simp [not_equals]
termination_by sizeOf a
decreasing_by
  have hm := List.sizeOf_lt_of_mem hx
  simp only [Value.List.sizeOf_spec]
  omega

/-- The per-character rendering of the forced-double-quote mode as the code
performs it: a double quote gains a preceding backslash, an apostrophe is
emitted raw, control bytes become hex escapes (padded when the following
character would extend the escape), a backslash doubles, everything else
passes through. -/
def forcedEscapeChar (c : Char) (next : Option Char) : String :=
  if c = squote then sQ
  else if c = dquote then bS ++ dQ
  else if isEscapedCtl c then ctlEscape c ++ ctlPad next
  else if c = bslash then bS ++ bS
  else String.singleton c

/-- The forced-double-quote body: each character rendered by
`forcedEscapeChar` against its successor. -/
def forcedEscape : List Char → String
  | [] => ""
  | c :: rest => forcedEscapeChar c rest.head? ++ forcedEscape rest

/-- The claim's per-character rendering: *both* quote characters escaped
with a preceding backslash. -/
def bothEscapedChar (c : Char) (next : Option Char) : String :=
  if c = squote then bS ++ sQ
  else if c = dquote then bS ++ dQ
  else if isEscapedCtl c then ctlEscape c ++ ctlPad next
  else if c = bslash then bS ++ bS
  else String.singleton c

/-- The claim's forced-mode body: both quote characters escaped. -/
def bothEscaped : List Char → String
  | [] => ""
  | c :: rest => bothEscapedChar c rest.head? ++ bothEscaped rest

/-- In forced mode the scan never restarts and renders exactly the
forced-mode body, leaving the has-double-quote flag unchanged. -/
theorem vqsLoop_forced (hS hD : Bool) :
    ∀ cs : List Char, vqsLoop true hS hD cs = some (forcedEscape cs, hD) := by
  intro cs
  induction cs with
  | nil => rfl
  | cons c rest ih =>
      by_cases h1 : c = squote
      · simp [vqsLoop, forcedEscape, forcedEscapeChar, h1, ih]
      · by_cases h2 : c = dquote
        · simp [vqsLoop, forcedEscape, forcedEscapeChar, h1, h2, ih,
            (by decide : ¬(dquote = squote))]
        · by_cases h3 : isEscapedCtl c
          · simp [vqsLoop, forcedEscape, forcedEscapeChar, h1, h2, h3, ih]
          · by_cases h4 : c = bslash
            · simp [vqsLoop, forcedEscape, forcedEscapeChar, h4, ih,
                (by decide : ¬(bslash = squote)), (by decide : ¬(bslash = dquote)),
                (by decide : isEscapedCtl bslash = false)]
            · simp [vqsLoop, forcedEscape, forcedEscapeChar, h1, h2, h3, h4, ih]

/-- The unforced scan restarts (returns `none`) whenever the input together
with the already-seen flags exhibits a quote conflict: an apostrophe with
the double-quote flag set, a double quote with the apostrophe flag set, or
both quote characters present in the input. -/
theorem vqsLoop_conflict :
    ∀ (cs : List Char) (hS hD : Bool),
      ((squote ∈ cs ∧ hD = true) ∨ (dquote ∈ cs ∧ hS = true)
        ∨ (squote ∈ cs ∧ dquote ∈ cs)) →
      vqsLoop false hS hD cs = Option.none := by
  intro cs
  induction cs with
  | nil => intro hS hD h; simp at h
  | cons c rest ih =>
    intro hS hD h
    by_cases h1 : c = squote
    · subst h1
      cases hD with
      | true => simp [vqsLoop]
      | false =>
        have hdq : dquote ∈ rest := by
          rcases h with ⟨_, hd⟩ | ⟨hdq, _⟩ | ⟨_, hdq⟩
          · exact absurd hd (by decide)
          · rcases List.mem_cons.1 hdq with he | he
            · exact absurd he (by decide)
            · exact he
          · rcases List.mem_cons.1 hdq with he | he
            · exact absurd he (by decide)
            · exact he
        have hnone : vqsLoop false true false rest = Option.none :=
          ih true false (Or.inr (Or.inl ⟨hdq, rfl⟩))
        simp [vqsLoop, hnone]
    · by_cases h2 : c = dquote
      · subst h2
        cases hS with
        | true => simp [vqsLoop, h1]
        | false =>
          have hsq : squote ∈ rest := by
            rcases h with ⟨hsq, _⟩ | ⟨_, hs⟩ | ⟨hsq, _⟩
            · rcases List.mem_cons.1 hsq with he | he
              · exact absurd he (by decide)
              · exact he
            · exact absurd hs (by decide)
            · rcases List.mem_cons.1 hsq with he | he
              · exact absurd he (by decide)
              · exact he
          have hnone : vqsLoop false false true rest = Option.none :=
            ih false true (Or.inl ⟨hsq, rfl⟩)
          simp [vqsLoop, h1, hnone]
      · have hsq : squote ∈ c :: rest → squote ∈ rest := by
          intro hm
          rcases List.mem_cons.1 hm with he | he
          · exact absurd he.symm h1
          · exact he
        have hdq : dquote ∈ c :: rest → dquote ∈ rest := by
          intro hm
          rcases List.mem_cons.1 hm with he | he
          · exact absurd he.symm h2
          · exact he
        have h' : (squote ∈ rest ∧ hD = true) ∨ (dquote ∈ rest ∧ hS = true)
            ∨ (squote ∈ rest ∧ dquote ∈ rest) := by
          rcases h with ⟨a, b⟩ | ⟨a, b⟩ | ⟨a, b⟩
          · exact Or.inl ⟨hsq a, b⟩
          · exact Or.inr (Or.inl ⟨hdq a, b⟩)
          · exact Or.inr (Or.inr ⟨hsq a, hdq b⟩)
        have hnone := ih hS hD h'
        by_cases h3 : isEscapedCtl c
        · simp [vqsLoop, h1, h2, h3, hnone]
        · by_cases h4 : c = bslash
          · simp [vqsLoop, h4, hnone, (by decide : ¬(bslash = squote)),
              (by decide : ¬(bslash = dquote)), (by decide : isEscapedCtl bslash = false)]
          · simp [vqsLoop, h1, h2, h3, h4, hnone]

/-- Claim C6, counterexample: the claim says the forced-mode output escapes
*both* quote characters; on the two-character input `'"` (which conflicts
and restarts in forced mode) the actual output leaves the apostrophe raw,
so it differs from the both-escaped rendering the claim describes. -/
theorem c6_counterexample :
    visit_quoted_string false (sQ ++ dQ) ≠ dQ ++ bothEscaped (sQ ++ dQ).data ++ dQ := by
  decide

/-- Claim C6 (amended: once a conflict forces the restart — in particular
whenever both quote characters occur in the input — the output wraps the
body in double quotes and escapes every double quote with a preceding
backslash while apostrophes are emitted raw). -/
theorem c6_forced_double_quote (s : String)
    (h1 : squote ∈ s.data) (h2 : dquote ∈ s.data) :
    visit_quoted_string false s = dQ ++ forcedEscape s.data ++ dQ := by
  have hr := vqsLoop_conflict s.data false false (Or.inr (Or.inr ⟨h1, h2⟩))
  simp [visit_quoted_string, hr, vqsLoop_forced]

/-- Witness for C6's theorem at the concrete input `'"`. -/
theorem c6_forced_double_quote_witness :
    visit_quoted_string false (sQ ++ dQ) = dQ ++ forcedEscape (sQ ++ dQ).data ++ dQ :=
  c6_forced_double_quote (sQ ++ dQ) (by decide) (by decide)

/-- The concatenated text of a digit list. -/
def digitsText : List ℤ → String
  | [] => ""
  | d :: ds => toString d ++ digitsText ds

/-- The digit process as the claim describes it: repeatedly multiply the
remaining fraction by ten and emit the integer digit, stopping early when
the fraction becomes exactly zero, with the iteration budget capping the
digit count; returns the emitted digits and the remaining fraction. -/
def specFracDigits (f : ℚ) : Nat → List ℤ × ℚ
  | 0 => ([], f)
  | k + 1 =>
      if f = 0 then ([], 0)
      else
        let d := rtrunc (qmul f 10)
        let r := rfract (qmul f 10)
        let p := specFracDigits r k
        (d :: p.1, p.2)

/-- The display algorithm as the claim describes it, parameterized by the
rounding mode of the final digit: the integer part, a decimal point, the
digits of `specFracDigits` with a 10-digit budget, and — when a nonzero
fraction remains — one extra digit obtained by multiplying the remainder by
ten and rounding with `rnd`. -/
def specDisplayWith (rnd : ℚ → ℤ) (q : ℚ) : String :=
  let ip := toString (rtrunc q)
  let f := rfract q
  if f = 0 then ip
  else
    let p := specFracDigits f 10
    ip ++ "." ++ digitsText p.1
      ++ (if p.2 = 0 then "" else toString (rnd (qmul p.2 10)))

/-- The emit-then-test digit loop of the code agrees with the claim's
test-then-emit digit process on every nonzero starting fraction: the written
text is the concatenation of the digits, and the remainders coincide. -/
theorem fmtFracLoop_eq_spec :
    ∀ (k : Nat) (f : ℚ), f ≠ 0 →
      fmtFracLoop f k
        = (digitsText (specFracDigits f k).1, (specFracDigits f k).2) := by
  intro k
  induction k with
  | zero => intro f hf; simp [fmtFracLoop, specFracDigits, digitsText]
  | succ k ih =>
      intro f hf
      by_cases hr : rfract (qmul f 10) = 0
      · cases k with
        | zero =>
            simp [fmtFracLoop, specFracDigits, digitsText, hf, hr]
        | succ k' =>
            simp [fmtFracLoop, specFracDigits, digitsText, hf, hr]
      · have := ih (rfract (qmul f 10)) hr
        simp [fmtFracLoop, specFracDigits, digitsText, hf, hr, this]

/-- Claim C5, counterexample: the claim fixes the final-digit rounding to
half-up, but `BigRational::round` rounds half-way cases away from zero; at
`-9/200000000000` (ten zero digits, remainder `-0.45`, final value `-4.5`)
the code writes `-5` where half-up writes `-4`, so the displayed strings
differ. -/
theorem c5_counterexample :
    rfract (mkRat (-9) 200000000000) ≠ 0
    ∧ numberDisplay (mkRat (-9) 200000000000)
        ≠ specDisplayWith roundHalfUp (mkRat (-9) 200000000000) := by
  constructor
  · decide
  · decide

/-- Claim C5 (amended: the final digit is obtained by multiplying the
remainder by ten and rounding half away from zero — half-up coincides with
it only on nonnegative remainders): for every non-integer rational the
displayed form is the integer part, a decimal point, the digit process of
the claim capped at 10 digits with early stop on a zero fraction, and, when
a nonzero fraction remains, the single away-rounded extra digit; display
never mutates the stored value, being a pure function of it. -/
theorem c5_display (q : ℚ) (h : rfract q ≠ 0) :
    numberDisplay q = specDisplayWith roundAway q := by
  have hl := fmtFracLoop_eq_spec 10 (rfract q) h
  simp only [numberDisplay, specDisplayWith, hl, if_neg h]

/-- Witness for C5's theorem at `1/2` (displayed `0.5`). -/
theorem c5_display_witness :
    rfract (mkRat 1 2) ≠ 0
    ∧ numberDisplay (mkRat 1 2) = specDisplayWith roundAway (mkRat 1 2) :=
  ⟨by decide, c5_display (mkRat 1 2) (by decide)⟩

/-- Is the value a (bare) string? -/
def isStringValue : Value → Bool
  | Value.String _ _ => true
  | _ => false

/-- Is the value a non-empty space-separated list of strings? -/
def spaceListOfStrings : Value → Bool
  | Value.List l ListSeparator.Space _ => !l.isEmpty && l.all isStringValue
  | _ => false

/-- An element the comma loop of the selector bridge accepts: a string, or a
(non-empty) space-separated list of strings. -/
def selectorElemOk (v : Value) : Bool :=
  isStringValue v || spaceListOfStrings v

/-- The shapes the claim says are the only successful inputs of the selector
bridge: a bare string, or a comma-separated list whose elements are each a
string or a space-separated list of strings. -/
def claimSelectorAccept : Value → Bool
  | Value.String _ _ => true
  | Value.List l ListSeparator.Comma _ => l.all selectorElemOk
  | _ => false

/-- The amended accepted shapes: a bare string; a non-empty comma-separated
list whose elements are each a string or a non-empty space-separated list of
strings; or a non-empty space-separated list of strings at top level. -/
def amendedSelectorAccept : Value → Bool
  | Value.String _ _ => true
  | Value.List l ListSeparator.Comma _ => !l.isEmpty && l.all selectorElemOk
  | Value.List l ListSeparator.Space _ => !l.isEmpty && l.all isStringValue
  | _ => false

/-- The space loop of the selector bridge succeeds exactly on lists of
strings. -/
theorem selSpaceLoop_isSome :
    ∀ l : List Value, (selSpaceLoop l).isSome = l.all isStringValue := by
  intro l
  induction l with
  | nil => simp [selSpaceLoop]
  | cons v rest ih =>
      cases v
      case String t q =>
        have hr := ih
        cases h : selSpaceLoop rest with
        | none => rw [h] at hr; simp [selSpaceLoop, h, isStringValue, ← hr]
        | some ps => rw [h] at hr; simp [selSpaceLoop, h, isStringValue, ← hr]
      all_goals simp [selSpaceLoop, isStringValue]

/-- `selector_string` on a space-separated list succeeds exactly when the
list is non-empty and all elements are strings (brackets are ignored). -/
theorem selector_string_space_list (l : List Value) (b : Brackets) :
    (selector_string (Value.List l ListSeparator.Space b)).isSome
      = (!l.isEmpty && l.all isStringValue) := by
  by_cases he : l.isEmpty
  · simp [selector_string, he]
  · have hs := selSpaceLoop_isSome l
    cases h : selSpaceLoop l with
    | none => rw [h] at hs; simp [selector_string, he, h, ← hs]
    | some ps => rw [h] at hs; simp [selector_string, he, h, ← hs]

/-- The comma loop of the selector bridge succeeds exactly on lists whose
elements are strings or non-empty space lists of strings. -/
theorem selCommaLoop_isSome :
    ∀ l : List Value, (selCommaLoop l).isSome = l.all selectorElemOk := by
  intro l
  induction l with
  | nil => simp [selCommaLoop]
  | cons v rest ih =>
      cases v
      case String t q =>
        have hr := ih
        cases h : selCommaLoop rest with
        | none =>
            rw [h] at hr
            simp [selCommaLoop, h, selectorElemOk, isStringValue, ← hr]
        | some ps =>
            rw [h] at hr
            simp [selCommaLoop, h, selectorElemOk, isStringValue, ← hr]
      case List l2 sep2 b2 =>
        cases sep2
        · have hsp := selector_string_space_list l2 b2
          cases hs : selector_string (Value.List l2 ListSeparator.Space b2) with
          | none =>
              rw [hs] at hsp
              simp [selCommaLoop, hs, selectorElemOk, isStringValue,
                spaceListOfStrings, ← hsp]
          | some t =>
              rw [hs] at hsp
              have hr := ih
              cases h : selCommaLoop rest with
              | none =>
                  rw [h] at hr
                  simp [selCommaLoop, hs, h, selectorElemOk, isStringValue,
                    spaceListOfStrings, ← hsp, ← hr]
              | some ps =>
                  rw [h] at hr
                  simp [selCommaLoop, hs, h, selectorElemOk, isStringValue,
                    spaceListOfStrings, ← hsp, ← hr]
        · simp [selCommaLoop, selectorElemOk, isStringValue, spaceListOfStrings]
      all_goals simp [selCommaLoop, selectorElemOk, isStringValue, spaceListOfStrings]

/-- Claim C8, counterexample: the claim accepts only bare strings and comma
lists (of strings / space lists of strings), yet the code also flattens a
top-level *space*-separated list of strings — at this concrete input the
bridge succeeds with `"a b"` although the claim's accepted-shape predicate
rejects it. -/
theorem c8_counterexample :
    claimSelectorAccept
        (Value.List [Value.String "a" QuoteKind.None, Value.String "b" QuoteKind.None]
          ListSeparator.Space Brackets.None) = false
    ∧ selector_string
        (Value.List [Value.String "a" QuoteKind.None, Value.String "b" QuoteKind.None]
          ListSeparator.Space Brackets.None) = some "a b" := by
  constructor
  · rfl
  · simp [selector_string, selSpaceLoop]
    decide

/-- Claim C8 (amended: the bridge succeeds exactly for a bare string, a
non-empty comma list whose elements are strings or non-empty space lists of
strings, or a non-empty top-level space list of strings; on every other
shape `selector_string` yields no text and `to_selector` returns the
user-facing error naming the argument and embedding the value's inspected
form). -/
theorem c8_selector_bridge (v : Value) (name : String) (sp : Span) :
    ((selector_string v).isSome = amendedSelectorAccept v)
    ∧ (selector_string v = Option.none →
        to_selector_text v name sp = Except.error (selectorErrMsg name v sp, sp)) := by
  constructor
  · cases v
    case String s q => simp [selector_string, amendedSelectorAccept]
    case List l sep br =>
      cases sep
      · rw [selector_string_space_list]
        simp [amendedSelectorAccept]
      · by_cases he : l.isEmpty
        · simp [selector_string, amendedSelectorAccept, he]
        · have hc := selCommaLoop_isSome l
          cases h : selCommaLoop l with
          | none =>
              rw [h] at hc
              simp [selector_string, amendedSelectorAccept, he, h, ← hc]
          | some ps =>
              rw [h] at hc
              simp [selector_string, amendedSelectorAccept, he, h, ← hc]
    all_goals simp [selector_string, amendedSelectorAccept]
  · intro h
    simp [to_selector_text, h]

/-- Witness for C8's theorem: a `Map` is not an accepted shape, and the
bridge returns the invalid-selector error for it. -/
theorem c8_selector_bridge_witness :
    to_selector_text (Value.Map []) "selectors" ⟨0⟩
      = Except.error (selectorErrMsg "selectors" (Value.Map []) ⟨0⟩, ⟨0⟩) :=
  (c8_selector_bridge (Value.Map []) "selectors" ⟨0⟩).2 (by simp [selector_string])

end Grass
